import Mathlib

/-!
Shallow embedding of the incremental crawl state machine and resumable
pagination/dedup protocol of the uae-scrapper repository (judgments,
daily judgments, legislation, weekly legislation variants), together
with proofs of its specification-level properties.

Python dictionaries are modelled as association lists with in-place
update, Python sets as duplicate-free lists, the filesystem as an
association list from path to content, wall-clock timestamps as `Nat`
parameters, and the external collaborators (Page Source, Document
Fetcher) as oracle functions supplied in an environment record.
-/

/-- Association-list lookup, first match wins (Python `dict` access). -/
def lookupKey (k : String) : List (String × α) → Option α
  | [] => none
  | p :: rest => if p.1 = k then some p.2 else lookupKey k rest

/-- Association-list update in place (Python `d[k] = v`): replaces the
first binding of `k`, or appends a new binding at the end. -/
def setKey (k : String) (v : α) : List (String × α) → List (String × α)
  | [] => [(k, v)]
  | p :: rest => if p.1 = k then (k, v) :: rest else p :: setKey k v rest

/-- Association-list removal (Python `d.pop(k, None)`). -/
def dropKey (k : String) : List (String × α) → List (String × α)
  | [] => []
  | p :: rest => if p.1 = k then dropKey k rest else p :: dropKey k rest

/-- Membership test on a list of strings (Python `x in s` for a set). -/
def hasUrl : List String → String → Bool
  | [], _ => false
  | x :: rest, u => if x = u then true else hasUrl rest u

/-- Set insertion (Python `set.add`). -/
def addUrl (s : List String) (u : String) : List String :=
  if hasUrl s u then s else s ++ [u]

/-- First-defined choice between two optional values. -/
def oor : Option α → Option α → Option α
  | some v, _ => some v
  | none, b => b

/-- Python `str.strip()`: remove leading and trailing whitespace.  Written
on the character list so that it evaluates inside the kernel. -/
def pyStrip (s : String) : String :=
  ((s.data.dropWhile Char.isWhitespace).reverse.dropWhile
    Char.isWhitespace).reverse.asString

-- ---------------------------------------------------------------------
-- Ledger rows and category-cursor rows (scraper_tracker.py data model)
-- ---------------------------------------------------------------------

/-- One row of the `processed_urls` map: `{'timestamp': ..., 'status': ...,
'metadata': ...}` as written by `ScraperTracker.mark_processed`. -/
structure UrlEntry where
  timestamp : Nat
  status : String
  metadata : List (String × String)
deriving Repr, DecidableEq

/-- One row of the `categories` map: `{'status': ..., 'last_updated': ...}`
as written by `set_category_status`. -/
structure CatInfo where
  status : String
  last_updated : Nat
deriving Repr, DecidableEq

/-- In-memory state of `ScraperTracker` (scraper_tracker.py): the processed
URL map and the per-category status map, plus the state-file path. -/
structure ScraperTracker where
  state_file : String
  processed_urls : List (String × UrlEntry)
  categories : List (String × CatInfo)
deriving Repr, DecidableEq

-- ---------------------------------------------------------------------
-- Filesystem model and the atomic-persistence discipline
-- ---------------------------------------------------------------------

/-- The filesystem: an association list from path to file content. -/
abbrev FS := List (String × String)

/-- Contents of a file, if it exists. -/
def fsRead (path : String) (fs : FS) : Option String :=
  lookupKey path fs

/-- Whole-file write (Python `open(path, 'w')` + `write`). -/
def fsWrite (path content : String) (fs : FS) : FS :=
  setKey path content fs

/-- Atomic rename of `src` over `dst` (Python `os.replace` / `os.rename`):
`dst` receives the content of `src` in one step and `src` disappears. -/
def fsReplace (src dst : String) (fs : FS) : FS :=
  match lookupKey src fs with
  | none => fs
  | some c => setKey dst c (dropKey src fs)

/-- Serialisation of a metadata mapping. -/
def encMeta : List (String × String) → String
  | [] => ""
  | p :: rest => "(" ++ p.1 ++ "=" ++ p.2 ++ ")" ++ encMeta rest

/-- Serialisation of one processed-URL row. -/
def encUrlEntry (e : UrlEntry) : String :=
  toString e.timestamp ++ "|" ++ e.status ++ "|" ++ encMeta e.metadata

/-- Serialisation of the processed-URL map. -/
def encUrls : List (String × UrlEntry) → String
  | [] => ""
  | p :: rest => "[" ++ p.1 ++ ":" ++ encUrlEntry p.2 ++ "]" ++ encUrls rest

/-- Serialisation of the category map. -/
def encCats : List (String × CatInfo) → String
  | [] => ""
  | p :: rest =>
      "[" ++ p.1 ++ ":" ++ p.2.status ++ "@" ++ toString p.2.last_updated ++ "]"
        ++ encCats rest

/-- The JSON document `save_state` dumps: the full ledger state
(`last_updated`, `processed_count`, `categories`, `processed_urls`). -/
def serializeState (now : Nat) (t : ScraperTracker) : String :=
  "last_updated=" ++ toString now
    ++ ";processed_count=" ++ toString t.processed_urls.length
    ++ ";categories=" ++ encCats t.categories
    ++ ";processed_urls=" ++ encUrls t.processed_urls

/-- `ScraperTracker.save_state`: dump the full state to `state_file + ".tmp"`,
then atomically rename the temp file over the canonical path. -/
def ScraperTracker.save_state (now : Nat) (t : ScraperTracker) (fs : FS) : FS :=
  fsReplace (t.state_file ++ ".tmp") t.state_file
    (fsWrite (t.state_file ++ ".tmp") (serializeState now t) fs)

/-- The filesystem as left by a crash after the temp-file write but before
the atomic rename inside `save_state`. -/
def ScraperTracker.save_state_crashed (now : Nat) (t : ScraperTracker) (fs : FS) : FS :=
  fsWrite (t.state_file ++ ".tmp") (serializeState now t) fs

/-- `save_state` with its `try/except`: on failure the exception is caught
(logged), nothing is raised, and the in-memory tracker is untouched; the
canonical file is at worst left at the crashed-midway state. -/
def ScraperTracker.save_state_attempt (ok : Bool) (now : Nat) (t : ScraperTracker)
    (fs : FS) : ScraperTracker × FS :=
  (t, if ok then t.save_state now fs else t.save_state_crashed now fs)

-- ---------------------------------------------------------------------
-- ScraperTracker public interface (scraper_tracker.py)
-- ---------------------------------------------------------------------

/-- `ScraperTracker.is_processed`: `if not url: return False`, then a
membership-plus-status test on the whitespace-trimmed URL.  A `None`
argument is `Option.none`; the empty string is also falsy in Python. -/
def ScraperTracker.is_processed (t : ScraperTracker) (url : Option String) : Bool :=
  match url with
  | none => false
  | some u =>
      if u = "" then false
      else
        match lookupKey (pyStrip u) t.processed_urls with
        | some e => e.status = "success"
        | none => false

/-- `ScraperTracker.mark_processed`: falsy URLs return immediately (no state
change, no save); otherwise the trimmed URL is bound to a fresh row and the
whole state is persisted via `save_state`. -/
def ScraperTracker.mark_processed (now : Nat) (url : Option String) (status : String)
    (metadata : List (String × String)) (t : ScraperTracker) (fs : FS) :
    ScraperTracker × FS :=
  match url with
  | none => (t, fs)
  | some u =>
      if u = "" then (t, fs)
      else
        let t' := { t with
          processed_urls :=
            setKey (pyStrip u) ⟨now, status, metadata⟩ t.processed_urls }
        (t', t'.save_state now fs)

/-- `ScraperTracker.set_category_status`: update the in-memory category map,
then persist the whole state via `save_state`. -/
def ScraperTracker.set_category_status (now : Nat) (category status : String)
    (t : ScraperTracker) (fs : FS) : ScraperTracker × FS :=
  let t' := { t with categories := setKey category ⟨status, now⟩ t.categories }
  (t', t'.save_state now fs)

/-- `ScraperTracker.is_category_complete`:
`self.categories.get(category, {}).get('status') == 'completed'`. -/
def ScraperTracker.is_category_complete (cats : List (String × CatInfo))
    (category : String) : Bool :=
  match lookupKey category cats with
  | some info => info.status = "completed"
  | none => false

-- ---------------------------------------------------------------------
-- StateManager (UAE_judgements_crawler.py): runtime URL set, category
-- map, and the merge into the main scraper state
-- ---------------------------------------------------------------------

/-- In-memory state of `StateManager`: a plain set of processed URLs
(`self.processed_urls: set`) and a category map. -/
structure StateManager where
  processed_urls : List String
  categories : List (String × CatInfo)
deriving Repr, DecidableEq

/-- `StateManager.is_processed`: `url.strip() in self.processed_urls`. -/
def StateManager.is_processed (processed : List String) (url : String) : Bool :=
  hasUrl processed (pyStrip url)

/-- `StateManager.set_category_status`: the method body assigns
`self.categories[name] = {...}` and performs no file write whatsoever
(there is no call to any save/persist routine), so the filesystem is
returned unchanged. -/
def StateManager.set_category_status (now : Nat) (name status : String)
    (sm : StateManager) (fs : FS) : StateManager × FS :=
  ({ sm with categories := setKey name ⟨status, now⟩ sm.categories }, fs)

/-- The logical content of one persisted state file
(`processed_urls` and `categories` sections). -/
structure StateData where
  processed_urls : List (String × UrlEntry)
  categories : List (String × CatInfo)
deriving Repr, DecidableEq

/-- The merge loop at the heart of `StateManager.sync_to_main_state`:
`for url, meta in crawler_data["processed_urls"].items(): if url not in
main_data["processed_urls"]: main_data["processed_urls"][url] = meta`.
Existing bindings of the primary are never overwritten. -/
def mergeProcessed (main sec : List (String × UrlEntry)) :
    List (String × UrlEntry) :=
  sec.foldl (fun acc p =>
    match lookupKey p.1 acc with
    | some _ => acc
    | none => acc ++ [p]) main

/-- `StateManager.sync_to_main_state`, at the data level: processed URLs
are merged first-writer-wins into the primary; category rows of the
secondary overwrite the primary's. -/
def sync_to_main_state (crawler main : StateData) : StateData :=
  { processed_urls := mergeProcessed main.processed_urls crawler.processed_urls
    categories := crawler.categories.foldl (fun acc p => setKey p.1 p.2 acc)
      main.categories }

-- ---------------------------------------------------------------------
-- Daily crawl loop (DIFCDailyCrawler.crawl_category)
-- ---------------------------------------------------------------------

/-- One candidate item of a listing page (title, detail URL, label, date). -/
structure Entry where
  title : String
  url : String
  label : String
  date : String
deriving Repr, DecidableEq

/-- The three observable ways one call to `download_entry` can end:
return `True` (the entry was stored, uploaded, and marked processed inside
`download_entry`), return `False`, or raise an exception. -/
inductive FetchOutcome
  | success
  | failure
  | raised
deriving Repr, DecidableEq

/-- External collaborators of the daily crawler: the declared page count,
the Page Source (`scrape_listing_page`), and the Document Fetcher
(`download_entry`), the latter as an oracle indexed by the global count of
fetch invocations made so far. -/
structure CrawlEnv where
  totalPages : Nat
  listing : Nat → List Entry
  fetch : Nat → FetchOutcome

/-- The run statistics dictionary `self.stats` of `DIFCDailyCrawler`. -/
structure RunStats where
  categories_scanned : Nat
  pages_scanned : Nat
  new_downloaded : Nat
  skipped : Nat
  failed : Nat
deriving Repr, DecidableEq

/-- Mutable state threaded through `crawl_category`: the `StateManager`
URL set and category map, the stats, the new-items buffer, the browser
restart counter, plus two instrumentation fields: `fetchLog` records the
trimmed URL of every `download_entry` invocation in order, and
`entriesSeen` counts every listing entry the item loop has examined. -/
structure CrawlState where
  processed : List String
  categories : List (String × CatInfo)
  stats : RunStats
  newItems : List Entry
  itemsSinceRestart : Nat
  fetchLog : List String
  entriesSeen : Nat
deriving Repr, DecidableEq

/-- Browser-restart bookkeeping after a non-skipped item: `items_since_restart
+= 1`, restart (a no-op on the crawl state) and reset once it reaches 40. -/
def afterItem (s : CrawlState) : CrawlState :=
  let n := s.itemsSinceRestart + 1
  if 40 ≤ n then { s with itemsSinceRestart := 0 }
  else { s with itemsSinceRestart := n }

/-- The body of the item loop of `crawl_category` for one entry.  Returns
the updated state and whether the entry was counted as skipped.  An entry
already in the ledger is skipped without any fetch; in dry-run mode a new
entry is recorded without a fetch; otherwise `download_entry` is called,
with exactly one retry (after a browser restart) if the first call raised. -/
def processEntry (env : CrawlEnv) (dryRun : Bool) (e : Entry)
    (s : CrawlState) : CrawlState × Bool :=
  let s := { s with entriesSeen := s.entriesSeen + 1 }
  if StateManager.is_processed s.processed e.url then
    ({ s with stats := { s.stats with skipped := s.stats.skipped + 1 } }, true)
  else if dryRun then
    ({ s with newItems := s.newItems ++ [e],
              stats := { s.stats with
                new_downloaded := s.stats.new_downloaded + 1 } }, false)
  else
    let s1 := { s with fetchLog := s.fetchLog ++ [pyStrip e.url] }
    match env.fetch s.fetchLog.length with
    | FetchOutcome.success =>
        (afterItem { s1 with
          processed := addUrl s1.processed (pyStrip e.url),
          newItems := s1.newItems ++ [e],
          stats := { s1.stats with
            new_downloaded := s1.stats.new_downloaded + 1 } }, false)
    | FetchOutcome.failure =>
        (afterItem { s1 with
          stats := { s1.stats with failed := s1.stats.failed + 1 } }, false)
    | FetchOutcome.raised =>
        let s2 := { s1 with fetchLog := s1.fetchLog ++ [pyStrip e.url] }
        match env.fetch s1.fetchLog.length with
        | FetchOutcome.success =>
            (afterItem { s2 with
              processed := addUrl s2.processed (pyStrip e.url),
              newItems := s2.newItems ++ [e],
              stats := { s2.stats with
                new_downloaded := s2.stats.new_downloaded + 1 } }, false)
        | _ =>
            (afterItem { s2 with
              stats := { s2.stats with failed := s2.stats.failed + 1 } }, false)

/-- The item loop of `crawl_category` over one page of entries.  Returns the
updated state together with the page-local counters `skipped_on_page` and
`new_on_page`. -/
def processPage (env : CrawlEnv) (dryRun : Bool) :
    List Entry → CrawlState → CrawlState × Nat × Nat
  | [], s => (s, 0, 0)
  | e :: rest, s =>
      let (s', sk) := processEntry env dryRun e s
      let (s'', skRest, nwRest) := processPage env dryRun rest s'
      if sk then (s'', skRest + 1, nwRest) else (s'', skRest, nwRest + 1)

/-- The page loop of `crawl_category` (`for pg in range(1, total_pages + 1)`),
with `fuel` the number of page indices still to visit.  After each page the
incremental shortcut fires whenever the page was non-empty and fully
skipped — with no test of the category's completion status. -/
def crawlLoop (env : CrawlEnv) (dryRun : Bool) :
    Nat → Nat → CrawlState → CrawlState
  | 0, _, s => s
  | fuel + 1, pg, s =>
      let s0 := { s with stats := { s.stats with
        pages_scanned := s.stats.pages_scanned + 1 } }
      let entries := env.listing pg
      let (s', skOnPage, nwOnPage) := processPage env dryRun entries s0
      if entries.length ≠ 0 ∧ skOnPage = entries.length ∧ nwOnPage = 0 then s'
      else crawlLoop env dryRun fuel (pg + 1) s'

/-- `DIFCDailyCrawler.crawl_category`: mark the category in progress, bump
the category counter, run the page loop over the declared page range, then
mark the category completed. -/
def crawl_category (env : CrawlEnv) (dryRun : Bool) (name : String) (now : Nat)
    (s : CrawlState) : CrawlState :=
  let s1 := { s with
    categories := setKey name ⟨"in_progress", now⟩ s.categories,
    stats := { s.stats with
      categories_scanned := s.stats.categories_scanned + 1 } }
  let s2 := crawlLoop env dryRun env.totalPages 1 s1
  { s2 with categories := setKey name ⟨"completed", now⟩ s2.categories }

-- ---------------------------------------------------------------------
-- Judgments variant (UAE_judgements.py: DIFCCourtsScraper.scrape_category)
-- ---------------------------------------------------------------------

/-- The four observable ways one call to `scrape_detail_page` can end:
return `True` with the tracker row written (S3 upload succeeded inside),
return `True` without writing the tracker row (S3 upload failed, PDF kept
locally), return `False`, or raise. -/
inductive DetailOutcome
  | successMarked
  | successUnmarked
  | failure
  | raised
deriving Repr, DecidableEq

/-- External collaborators of `scrape_category`: declared page count, Page
Source, `scrape_detail_page` as a call-indexed oracle, the local-file
pre-check (`os.path.exists`), and the S3 upload result used in the
local-file branch. -/
structure JEnv where
  totalPages : Nat
  listing : Nat → List Entry
  fetch : Nat → DetailOutcome
  localFile : Entry → Bool
  uploadOk : Entry → Bool

/-- Mutable state threaded through `scrape_category`: the `ScraperTracker`
processed map and category map, the per-category counters, the restart
counter, plus instrumentation: `fetchCalls` counts `scrape_detail_page`
invocations and `pagesRequested` counts `scrape_listing_page` calls. -/
structure JState where
  tracker : List (String × UrlEntry)
  categories : List (String × CatInfo)
  total_downloaded : Nat
  total_skipped : Nat
  total_failed : Nat
  itemsSinceRestart : Nat
  fetchCalls : Nat
  pagesRequested : Nat
deriving Repr, DecidableEq

/-- Row written by `ScraperTracker.mark_processed` for a successful detail
scrape: trimmed URL bound to a fresh success row. -/
def jMark (now : Nat) (url : String) (metadata : List (String × String))
    (m : List (String × UrlEntry)) : List (String × UrlEntry) :=
  setKey (pyStrip url) ⟨now, "success", metadata⟩ m

/-- Tracker query used by the item loop:
`ScraperTracker.is_processed(entry['url'])` on a non-empty URL. -/
def jIsProcessed (m : List (String × UrlEntry)) (url : String) : Bool :=
  match lookupKey (pyStrip url) m with
  | some e => e.status = "success"
  | none => false

/-- Restart bookkeeping of `scrape_category` (identical fixed-count
heuristic, threshold 40). -/
def jAfterItem (s : JState) : JState :=
  let n := s.itemsSinceRestart + 1
  if 40 ≤ n then { s with itemsSinceRestart := 0 }
  else { s with itemsSinceRestart := n }

/-- The body of the item loop of `scrape_category` for one entry: tracker
check first (skip), then the local-file pre-check (upload and mark, counted
as skipped), otherwise `scrape_detail_page` with one retry after a browser
restart if the first call raised.  Returns the state and whether the entry
was counted as skipped. -/
def jProcessEntry (env : JEnv) (now : Nat) (e : Entry) (s : JState) :
    JState × Bool :=
  if jIsProcessed s.tracker e.url then
    ({ s with total_skipped := s.total_skipped + 1 }, true)
  else if env.localFile e then
    let meta :=
      if env.uploadOk e then
        [("s3_key", e.title), ("title", e.title), ("date", e.date),
         ("uploaded", "true")]
      else
        [("file", e.title), ("title", e.title), ("date", e.date),
         ("uploaded", "false")]
    ({ s with tracker := jMark now e.url meta s.tracker,
              total_skipped := s.total_skipped + 1 }, true)
  else
    let s1 := { s with fetchCalls := s.fetchCalls + 1 }
    let okMeta := [("s3_key", e.title), ("title", e.title), ("date", e.date),
                   ("uploaded", "true")]
    let onSuccess := fun (marked : Bool) (st : JState) =>
      let st := if marked then
          { st with tracker := jMark now e.url okMeta st.tracker }
        else st
      jAfterItem { st with total_downloaded := st.total_downloaded + 1 }
    match env.fetch s.fetchCalls with
    | DetailOutcome.successMarked => (onSuccess true s1, false)
    | DetailOutcome.successUnmarked => (onSuccess false s1, false)
    | DetailOutcome.failure =>
        (jAfterItem { s1 with total_failed := s1.total_failed + 1 }, false)
    | DetailOutcome.raised =>
        let s2 := { s1 with fetchCalls := s1.fetchCalls + 1 }
        match env.fetch s1.fetchCalls with
        | DetailOutcome.successMarked => (onSuccess true s2, false)
        | DetailOutcome.successUnmarked => (onSuccess false s2, false)
        | _ =>
            (jAfterItem { s2 with total_failed := s2.total_failed + 1 }, false)

/-- The item loop of `scrape_category` over one page; returns the updated
state and `skipped_on_this_page`. -/
def jProcessPage (env : JEnv) (now : Nat) :
    List Entry → JState → JState × Nat
  | [], s => (s, 0)
  | e :: rest, s =>
      let (s', sk) := jProcessEntry env now e s
      let (s'', skRest) := jProcessPage env now rest s'
      (s'', if sk then skRest + 1 else skRest)

/-- The page loop of `scrape_category`: on a non-empty, fully-skipped page
the loop breaks only in incremental mode (`is_incremental`, captured from
the category status before the scan); in resume mode it logs gap-fill and
continues. -/
def jLoop (env : JEnv) (now : Nat) (isIncremental : Bool) :
    Nat → Nat → JState → JState
  | 0, _, s => s
  | fuel + 1, pg, s =>
      let s0 := { s with pagesRequested := s.pagesRequested + 1 }
      let entries := env.listing pg
      let (s', skOnPage) := jProcessPage env now entries s0
      if 0 < entries.length ∧ skOnPage = entries.length ∧ isIncremental then s'
      else jLoop env now isIncremental fuel (pg + 1) s'

/-- `DIFCCourtsScraper.scrape_category`: capture `is_incremental` from the
category status, mark the category in progress, run the page loop over the
declared page range, then mark it completed. -/
def scrape_category (env : JEnv) (now : Nat) (name : String) (s : JState) :
    JState :=
  let isIncremental := ScraperTracker.is_category_complete s.categories name
  let s1 := { s with categories := setKey name ⟨"in_progress", now⟩ s.categories }
  let s2 := jLoop env now isIncremental env.totalPages 1 s1
  { s2 with categories := setKey name ⟨"completed", now⟩ s2.categories }

-- ---------------------------------------------------------------------
-- Legislation variant (law_only_uae.py: CrawlerState and
-- scrape_legislations, reused by law_weekly_crawler.py in weekly mode)
-- ---------------------------------------------------------------------

/-- One row of a legislation listing page, as produced by the row parser
(`leg_id`, title, number, year). -/
structure LegEntry where
  leg_id : String
  title : String
  number : String
  year : String
deriving Repr, DecidableEq

/-- Metadata row of a downloaded legislation. -/
structure LegMeta where
  title : String
  year : String
  number : String
  en_s3_key : String
  timestamp : Nat
deriving Repr, DecidableEq

/-- Metadata row of a failed legislation. -/
structure FailMeta where
  title : String
  error : String
  timestamp : Nat
deriving Repr, DecidableEq

/-- In-memory `CrawlerState.data` of law_only_uae.py: last page, the
`downloaded` map keyed by legislation id, and the `failed` map. -/
structure CrawlerState where
  state_file : String
  last_page : Nat
  downloaded : List (String × LegMeta)
  failed : List (String × FailMeta)
deriving Repr, DecidableEq

/-- `CrawlerState.is_downloaded`: membership in the `downloaded` map. -/
def CrawlerState.is_downloaded (c : CrawlerState) (leg_id : String) : Bool :=
  (lookupKey leg_id c.downloaded).isSome

/-- `CrawlerState.mark_downloaded`: insert the id into `downloaded` and pop
it from `failed`. -/
def CrawlerState.mark_downloaded (now : Nat) (leg_id title year number
    en_s3_key : String) (c : CrawlerState) : CrawlerState :=
  { c with
    downloaded := setKey leg_id ⟨title, year, number, en_s3_key, now⟩ c.downloaded,
    failed := dropKey leg_id c.failed }

/-- `CrawlerState.mark_failed`: insert the id into `failed` only. -/
def CrawlerState.mark_failed (now : Nat) (leg_id title error : String)
    (c : CrawlerState) : CrawlerState :=
  { c with failed := setKey leg_id ⟨title, error, now⟩ c.failed }

/-- `CrawlerState.set_last_page`. -/
def CrawlerState.set_last_page (page_num : Nat) (c : CrawlerState) : CrawlerState :=
  { c with last_page := page_num }

/-- Serialisation of the `downloaded` map. -/
def encLegs : List (String × LegMeta) → String
  | [] => ""
  | p :: rest =>
      "[" ++ p.1 ++ ":" ++ p.2.title ++ "|" ++ p.2.year ++ "|" ++ p.2.number
        ++ "|" ++ p.2.en_s3_key ++ "@" ++ toString p.2.timestamp ++ "]"
        ++ encLegs rest

/-- Serialisation of the `failed` map. -/
def encFails : List (String × FailMeta) → String
  | [] => ""
  | p :: rest =>
      "[" ++ p.1 ++ ":" ++ p.2.title ++ "|" ++ p.2.error ++ "@"
        ++ toString p.2.timestamp ++ "]" ++ encFails rest

/-- The JSON document `CrawlerState.save` dumps: the full legislation
ledger (`last_updated`, `last_page`, totals, `downloaded`, `failed`). -/
def serializeLeg (now : Nat) (c : CrawlerState) : String :=
  "last_updated=" ++ toString now
    ++ ";last_page=" ++ toString c.last_page
    ++ ";total_downloaded=" ++ toString c.downloaded.length
    ++ ";total_failed=" ++ toString c.failed.length
    ++ ";downloaded=" ++ encLegs c.downloaded
    ++ ";failed=" ++ encFails c.failed

/-- `CrawlerState.save`: dump the full state to `state_file + ".tmp"`, then
atomically rename over the canonical path (`os.replace`). -/
def CrawlerState.save (now : Nat) (c : CrawlerState) (fs : FS) : FS :=
  fsReplace (c.state_file ++ ".tmp") c.state_file
    (fsWrite (c.state_file ++ ".tmp") (serializeLeg now c) fs)

/-- The filesystem as left by a crash after the temp-file write but before
the rename inside `CrawlerState.save`. -/
def CrawlerState.save_crashed (now : Nat) (c : CrawlerState) (fs : FS) : FS :=
  fsWrite (c.state_file ++ ".tmp") (serializeLeg now c) fs

/-- `CrawlerState.save` with its `try/except`: a failure is caught and
logged, nothing is raised, and the in-memory state is untouched. -/
def CrawlerState.save_attempt (ok : Bool) (now : Nat) (c : CrawlerState)
    (fs : FS) : CrawlerState × FS :=
  (c, if ok then c.save now fs else c.save_crashed now fs)

/-- External collaborators of `scrape_legislations`: `_download_pdf` as a
call-indexed oracle returning whether the EN download-and-upload produced a
truthy result. -/
structure LegEnv where
  dl : Nat → Bool

/-- State threaded through the `scrape_legislations` pagination loop: the
`CrawlerState`, the run totals, the download-call counter, and the
instrumentation counter `pagesRequested` (rows parsed from one more page). -/
structure LegRun where
  state : CrawlerState
  total_dl : Nat
  total_skip : Nat
  total_fail : Nat
  dlCalls : Nat
  pagesRequested : Nat
deriving Repr, DecidableEq

/-- The body of the item loop of `scrape_legislations` for one row: skip if
`resume` and already downloaded, otherwise call `_download_pdf` once and
record the outcome via `mark_downloaded` or `mark_failed`.  Returns the
state and whether the row was counted as skipped. -/
def legProcessEntry (env : LegEnv) (resume : Bool) (now : Nat) (e : LegEntry)
    (r : LegRun) : LegRun × Bool :=
  if resume ∧ r.state.is_downloaded e.leg_id then
    ({ r with total_skip := r.total_skip + 1 }, true)
  else
    let ok := env.dl r.dlCalls
    let r1 := { r with dlCalls := r.dlCalls + 1 }
    if ok then
      ({ r1 with
          state := r1.state.mark_downloaded now e.leg_id e.title e.year
            e.number ("legislation/UAE/" ++ e.title ++ ".pdf"),
          total_dl := r1.total_dl + 1 }, false)
    else
      ({ r1 with
          state := r1.state.mark_failed now e.leg_id e.title
            "EN download failed",
          total_fail := r1.total_fail + 1 }, false)

/-- The item loop of `scrape_legislations` over one page; returns the state
and the page-local counters `page_skip` and `page_dl`. -/
def legProcessPage (env : LegEnv) (resume : Bool) (now : Nat) :
    List LegEntry → LegRun → LegRun × Nat × Nat
  | [], r => (r, 0, 0)
  | e :: rest, r =>
      let (r', sk) := legProcessEntry env resume now e r
      let (r'', skRest, dlRest) := legProcessPage env resume now rest r'
      if sk then (r'', skRest + 1, dlRest)
      else (r'', skRest, if r'.total_dl = r.total_dl then dlRest else dlRest + 1)

/-- The `while True` pagination loop of `scrape_legislations`.  The input
list holds the rows of the current page and of every following page; an
exhausted list is the missing next-page button.  An empty current page
breaks immediately.  In weekly mode a fully-skipped page increments the
consecutive counter and two consecutive fully-skipped pages break; a page
with any non-skipped row resets the counter to zero. -/
def legCrawl (env : LegEnv) (weekly resume : Bool) (now : Nat) :
    List (List LegEntry) → Nat → Nat → LegRun → LegRun
  | [], _, _, r => r
  | entries :: rest, pageNum, consec, r =>
      let r0 := { r with pagesRequested := r.pagesRequested + 1 }
      if entries.length = 0 then r0
      else
        let (r', pageSkip, _) := legProcessPage env resume now entries r0
        let r1 := { r' with state := r'.state.set_last_page pageNum }
        if weekly ∧ pageSkip = entries.length then
          if 2 ≤ consec + 1 then r1
          else
            match rest with
            | [] => r1
            | p :: ps => legCrawl env weekly resume now (p :: ps) (pageNum + 1)
                (consec + 1) r1
        else
          match rest with
          | [] => r1
          | p :: ps => legCrawl env weekly resume now (p :: ps) (pageNum + 1)
              (if weekly then 0 else consec) r1

-- ---------------------------------------------------------------------
-- Association-list lemmas
-- ---------------------------------------------------------------------

theorem lookup_setKey_self (k : String) (v : α) (m : List (String × α)) :
    lookupKey k (setKey k v m) = some v := by
  induction m with
  | nil => simp [setKey, lookupKey]
  | cons p rest ih =>
      by_cases h : p.1 = k
      · simp [setKey, h, lookupKey]
      · simp [setKey, h, lookupKey, ih]

theorem lookup_setKey_ne (k k' : String) (hne : k ≠ k') (v : α)
    (m : List (String × α)) :
    lookupKey k (setKey k' v m) = lookupKey k m := by
  induction m with
  | nil => simp [setKey, lookupKey, Ne.symm hne]
  | cons p rest ih =>
      by_cases h : p.1 = k'
      · subst h
        simp [setKey, lookupKey, Ne.symm hne]
      · by_cases h2 : p.1 = k
        · subst h2
          simp [setKey, h, lookupKey]
        · simp [setKey, h, lookupKey, h2, ih]

theorem lookup_append (k : String) (a b : List (String × α)) :
    lookupKey k (a ++ b) = oor (lookupKey k a) (lookupKey k b) := by
  induction a with
  | nil => simp [lookupKey, oor]
  | cons p rest ih =>
      by_cases h : p.1 = k
      · simp [lookupKey, h, oor]
      · simp [lookupKey, h, ih]

theorem oor_none_right (a : Option α) : oor a none = a := by
  cases a <;> rfl

theorem oor_assoc (a b c : Option α) : oor (oor a b) c = oor a (oor b c) := by
  cases a <;> rfl

theorem tmpPath_ne (s : String) : s ++ ".tmp" ≠ s := by
  intro h
  have h2 := congrArg String.length h
  simp [String.length_append] at h2
  have h3 : (".tmp" : String).length = 4 := rfl
  omega

-- ---------------------------------------------------------------------
-- C6: atomic temp-file-plus-rename persistence
-- ---------------------------------------------------------------------

theorem save_state_writes (now : Nat) (t : ScraperTracker) (fs : FS) :
    fsRead t.state_file (t.save_state now fs) = some (serializeState now t) := by
  unfold ScraperTracker.save_state fsReplace fsWrite fsRead
  rw [lookup_setKey_self]
  exact lookup_setKey_self _ _ _

theorem save_state_crash_safe (now : Nat) (t : ScraperTracker) (fs : FS) :
    fsRead t.state_file (t.save_state_crashed now fs) = fsRead t.state_file fs := by
  unfold ScraperTracker.save_state_crashed fsWrite fsRead
  exact lookup_setKey_ne _ _ (Ne.symm (tmpPath_ne _)) _ _

theorem leg_save_writes (now : Nat) (c : CrawlerState) (fs : FS) :
    fsRead c.state_file (c.save now fs) = some (serializeLeg now c) := by
  unfold CrawlerState.save fsReplace fsWrite fsRead
  rw [lookup_setKey_self]
  exact lookup_setKey_self _ _ _

theorem leg_save_crash_safe (now : Nat) (c : CrawlerState) (fs : FS) :
    fsRead c.state_file (c.save_crashed now fs) = fsRead c.state_file fs := by
  unfold CrawlerState.save_crashed fsWrite fsRead
  exact lookup_setKey_ne _ _ (Ne.symm (tmpPath_ne _)) _ _

/-- C6.  Every persist of the Ledger (`ScraperTracker.save_state` and the
legislation variant `CrawlerState.save`) writes the complete serialised
state to the temporary path and atomically renames it over the canonical
path: after a successful persist the canonical file holds the full new
state; after a crash between the temp-file write and the rename the
canonical file still holds exactly its prior content; and a caught persist
failure raises nothing, leaves the in-memory state untouched, and leaves
the canonical file at its prior content. -/
theorem c6_atomic_persistence (now : Nat) (t : ScraperTracker)
    (c : CrawlerState) (fs : FS) :
    fsRead t.state_file (t.save_state now fs) = some (serializeState now t)
    ∧ fsRead t.state_file (t.save_state_crashed now fs) = fsRead t.state_file fs
    ∧ (∀ ok, (ScraperTracker.save_state_attempt ok now t fs).1 = t)
    ∧ fsRead t.state_file (ScraperTracker.save_state_attempt false now t fs).2
        = fsRead t.state_file fs
    ∧ fsRead c.state_file (c.save now fs) = some (serializeLeg now c)
    ∧ fsRead c.state_file (c.save_crashed now fs) = fsRead c.state_file fs
    ∧ (∀ ok, (CrawlerState.save_attempt ok now c fs).1 = c) := by
  refine ⟨save_state_writes now t fs, save_state_crash_safe now t fs,
    fun ok => rfl, ?_, leg_save_writes now c fs, leg_save_crash_safe now c fs,
    fun ok => rfl⟩
  unfold ScraperTracker.save_state_attempt
  exact save_state_crash_safe now t fs

-- ---------------------------------------------------------------------
-- C7: first-writer-wins merge of the two ledgers
-- ---------------------------------------------------------------------

theorem lookup_mergeProcessed (url : String) (main sec : List (String × UrlEntry)) :
    lookupKey url (mergeProcessed main sec)
      = oor (lookupKey url main) (lookupKey url sec) := by
  unfold mergeProcessed
  induction sec generalizing main with
  | nil => simp [lookupKey, oor_none_right]
  | cons p rest ih =>
      simp only [List.foldl_cons]
      rw [ih]
      cases hm : lookupKey p.1 main with
      | some w =>
          simp only [hm]
          by_cases h : p.1 = url
          · subst h
            simp [lookupKey, hm, oor]
          · simp [lookupKey, h]
      | none =>
          simp only [hm]
          rw [lookup_append, oor_assoc]
          by_cases h : p.1 = url
          · subst h
            simp [lookupKey, oor]
          · simp [lookupKey, h, oor]

/-- C7.  Merging the secondary (crawler/incremental) ledger into the primary
(`StateManager.sync_to_main_state`) yields a processed-URL map whose lookup
is the primary's entry when the primary has one, and the secondary's entry
otherwise: every URL of either ledger is present, and on conflict the
primary's existing entry is kept unchanged while the secondary's is
discarded. -/
theorem c7_merge_first_writer_wins (crawler main : StateData) (url : String) :
    lookupKey url (sync_to_main_state crawler main).processed_urls
      = oor (lookupKey url main.processed_urls)
            (lookupKey url crawler.processed_urls) := by
  unfold sync_to_main_state
  exact lookup_mergeProcessed url main.processed_urls crawler.processed_urls

-- ---------------------------------------------------------------------
-- C9: persistence of category-status updates
-- ---------------------------------------------------------------------

/-- C9 counterexample.  `StateManager.set_category_status` of the daily
crawler updates the in-memory category map but performs no persistence at
all: at a concrete input the state files are bit-for-bit unchanged after
the call, refuting the claim that every `set_category_status` call durably
persists the updated status. -/
theorem c9_counterexample :
    (StateManager.set_category_status 5 "Orders" "completed"
        ⟨[], []⟩ [("crawler_state.json", "old")]).2
      = [("crawler_state.json", "old")]
    ∧ (StateManager.set_category_status 5 "Orders" "completed"
        ⟨[], []⟩ [("crawler_state.json", "old")]).1.categories
      = [("Orders", ⟨"completed", 5⟩)] := by
  exact ⟨rfl, rfl⟩

/-- C9 amended.  `ScraperTracker.set_category_status` both updates the
in-memory category map and durably persists the full updated state to the
state file via the atomic temp-file-plus-rename `save_state`;
`StateManager.set_category_status` in the daily crawler updates only the
in-memory map and touches no file (see the counterexample). -/
theorem c9_tracker_status_persisted (now : Nat) (category status : String)
    (t : ScraperTracker) (fs : FS) (sm : StateManager) :
    lookupKey category
        (ScraperTracker.set_category_status now category status t fs).1.categories
      = some ⟨status, now⟩
    ∧ (ScraperTracker.set_category_status now category status t fs).2
        = ScraperTracker.save_state now
            (ScraperTracker.set_category_status now category status t fs).1 fs
    ∧ fsRead t.state_file (ScraperTracker.set_category_status now category status t fs).2
        = some (serializeState now
            (ScraperTracker.set_category_status now category status t fs).1)
    ∧ (StateManager.set_category_status now category status sm fs).2 = fs := by
  exact ⟨lookup_setKey_self _ _ _, rfl,
    save_state_writes now
      { t with categories := setKey category ⟨status, now⟩ t.categories } fs,
    rfl⟩

-- ---------------------------------------------------------------------
-- C10: falsy URLs and trimmed keys at the Ledger interface
-- ---------------------------------------------------------------------

/-- C10.  At the `ScraperTracker` interface, a `None` or empty URL makes
`is_processed` return `False` and makes `mark_processed` a no-op that
changes neither the in-memory map nor the filesystem; for any non-empty
URL both methods key on the whitespace-trimmed URL, so URLs with equal
trimmed forms are interchangeable, and a marked URL is reported processed. -/
theorem c10_falsy_and_trimmed_urls (t : ScraperTracker) (fs : FS) (now : Nat)
    (st : String) (meta : List (String × String)) (u v : String) :
    ScraperTracker.is_processed t none = false
    ∧ ScraperTracker.is_processed t (some "") = false
    ∧ ScraperTracker.mark_processed now none st meta t fs = (t, fs)
    ∧ ScraperTracker.mark_processed now (some "") st meta t fs = (t, fs)
    ∧ (u ≠ "" →
        (ScraperTracker.mark_processed now (some u) "success" meta t fs).1.processed_urls
          = setKey (pyStrip u) ⟨now, "success", meta⟩ t.processed_urls)
    ∧ (u ≠ "" →
        ScraperTracker.is_processed
          (ScraperTracker.mark_processed now (some u) "success" meta t fs).1
          (some u) = true)
    ∧ (u ≠ "" → v ≠ "" → pyStrip u = pyStrip v →
        ScraperTracker.is_processed t (some u) = ScraperTracker.is_processed t (some v)
        ∧ ScraperTracker.mark_processed now (some u) st meta t fs
            = ScraperTracker.mark_processed now (some v) st meta t fs) := by
  refine ⟨rfl, rfl, rfl, rfl, ?_, ?_, ?_⟩
  · intro hu
    simp [ScraperTracker.mark_processed, hu]
  · intro hu
    simp [ScraperTracker.mark_processed, hu, ScraperTracker.is_processed,
      lookup_setKey_self]
  · intro hu hv htrim
    constructor
    · simp [ScraperTracker.is_processed, hu, hv, htrim]
    · simp [ScraperTracker.mark_processed, hu, hv, htrim]

/-- C10 witness: the theorem applied at a concrete tracker, `" a "` and
`"a "` (equal trimmed forms), with every hypothesis discharged. -/
theorem c10_falsy_and_trimmed_urls_witness :
    ("https://x/a" : String) ≠ ""
    ∧ pyStrip "https://x/a" = pyStrip "https://x/a"
    ∧ (ScraperTracker.is_processed ⟨"scraper_state.json", [], []⟩ (some "https://x/a")
         = ScraperTracker.is_processed ⟨"scraper_state.json", [], []⟩ (some "https://x/a")
       ∧ ScraperTracker.mark_processed 7 (some "https://x/a") "success" []
           ⟨"scraper_state.json", [], []⟩ []
         = ScraperTracker.mark_processed 7 (some "https://x/a") "success" []
           ⟨"scraper_state.json", [], []⟩ []) := by
  refine ⟨by decide, rfl, ?_⟩
  exact (c10_falsy_and_trimmed_urls ⟨"scraper_state.json", [], []⟩ [] 7 "success"
    [] "https://x/a" "https://x/a").2.2.2.2.2.2 (by decide) (by decide) rfl

-- ---------------------------------------------------------------------
-- Projection lemmas for the restart bookkeeping
-- ---------------------------------------------------------------------

theorem afterItem_processed (s : CrawlState) : (afterItem s).processed = s.processed := by
  unfold afterItem
  by_cases h : 40 ≤ s.itemsSinceRestart + 1 <;> simp [h]

theorem afterItem_stats (s : CrawlState) : (afterItem s).stats = s.stats := by
  unfold afterItem
  by_cases h : 40 ≤ s.itemsSinceRestart + 1 <;> simp [h]

theorem afterItem_fetchLog (s : CrawlState) : (afterItem s).fetchLog = s.fetchLog := by
  unfold afterItem
  by_cases h : 40 ≤ s.itemsSinceRestart + 1 <;> simp [h]

theorem afterItem_newItems (s : CrawlState) : (afterItem s).newItems = s.newItems := by
  unfold afterItem
  by_cases h : 40 ≤ s.itemsSinceRestart + 1 <;> simp [h]

theorem afterItem_entriesSeen (s : CrawlState) :
    (afterItem s).entriesSeen = s.entriesSeen := by
  unfold afterItem
  by_cases h : 40 ≤ s.itemsSinceRestart + 1 <;> simp [h]

theorem afterItem_categories (s : CrawlState) :
    (afterItem s).categories = s.categories := by
  unfold afterItem
  by_cases h : 40 ≤ s.itemsSinceRestart + 1 <;> simp [h]

-- ---------------------------------------------------------------------
-- C2: at-most-twice fetch per item, exactly zero when already processed
-- ---------------------------------------------------------------------

/-- C2.  For each item examined by the item loop of `crawl_category`: if the
Ledger reports its trimmed URL processed at loop entry, `download_entry` is
invoked zero times for it (the fetch log is unchanged) and it is counted as
skipped; in every case the fetch log grows by at most two invocations, every
one of them for this item's trimmed URL (one initial attempt plus at most
one retry after the browser restart). -/
theorem c2_at_most_two_fetches (env : CrawlEnv) (dryRun : Bool) (e : Entry)
    (s : CrawlState) :
    (StateManager.is_processed s.processed e.url = true →
        (processEntry env dryRun e s).1.fetchLog = s.fetchLog
        ∧ (processEntry env dryRun e s).1.stats.skipped = s.stats.skipped + 1)
    ∧ ∃ tail, (processEntry env dryRun e s).1.fetchLog = s.fetchLog ++ tail
        ∧ tail.length ≤ 2 ∧ ∀ u ∈ tail, u = pyStrip e.url := by
  constructor
  · intro hp
    simp [processEntry, hp]
  · by_cases hp : StateManager.is_processed s.processed e.url
    · exact ⟨[], by simp [processEntry, hp], by simp, by simp⟩
    · by_cases hd : dryRun
      · exact ⟨[], by simp [processEntry, hp, hd], by simp, by simp⟩
      · cases h1 : env.fetch s.fetchLog.length with
        | success =>
            refine ⟨[pyStrip e.url], ?_, by simp, by simp⟩
            simp [processEntry, hp, hd, h1, afterItem_fetchLog]
        | failure =>
            refine ⟨[pyStrip e.url], ?_, by simp, by simp⟩
            simp [processEntry, hp, hd, h1, afterItem_fetchLog]
        | raised =>
            cases h2 : env.fetch (s.fetchLog.length + 1) with
            | success =>
                refine ⟨[pyStrip e.url, pyStrip e.url], ?_, by simp, by simp⟩
                simp [processEntry, hp, hd, h1, h2, afterItem_fetchLog]
            | failure =>
                refine ⟨[pyStrip e.url, pyStrip e.url], ?_, by simp, by simp⟩
                simp [processEntry, hp, hd, h1, h2, afterItem_fetchLog]
            | raised =>
                refine ⟨[pyStrip e.url, pyStrip e.url], ?_, by simp, by simp⟩
                simp [processEntry, hp, hd, h1, h2, afterItem_fetchLog]

/-- C2 witness: a concrete already-processed item is fetched zero times and
counted skipped, and the fetch-log growth bound holds there. -/
theorem c2_at_most_two_fetches_witness :
    StateManager.is_processed ["https://x/a"] "https://x/a" = true
    ∧ ((processEntry ⟨1, fun _ => [], fun _ => FetchOutcome.success⟩ false
          ⟨"A", "https://x/a", "Judgment", "2024"⟩
          ⟨["https://x/a"], [], ⟨0, 0, 0, 0, 0⟩, [], 0, [], 0⟩).1.fetchLog = []
        ∧ (processEntry ⟨1, fun _ => [], fun _ => FetchOutcome.success⟩ false
          ⟨"A", "https://x/a", "Judgment", "2024"⟩
          ⟨["https://x/a"], [], ⟨0, 0, 0, 0, 0⟩, [], 0, [], 0⟩).1.stats.skipped = 0 + 1) := by
  refine ⟨by decide, ?_⟩
  exact (c2_at_most_two_fetches ⟨1, fun _ => [], fun _ => FetchOutcome.success⟩
    false ⟨"A", "https://x/a", "Judgment", "2024"⟩
    ⟨["https://x/a"], [], ⟨0, 0, 0, 0, 0⟩, [], 0, [], 0⟩).1 (by decide)

-- ---------------------------------------------------------------------
-- C5: failed fetches are counted and never marked processed
-- ---------------------------------------------------------------------

/-- C5.  In the daily crawl loop, an item whose fetch fails (a `False`
return, or a raised first attempt whose retry does not succeed) is counted
as failed and its URL is not added to the processed set: the Ledger's dedup
state is unchanged, so the item stays eligible for the next run.  In the
legislation variant, `mark_failed` leaves `is_downloaded` unchanged for
every id, and a failed download records the failure without touching the
`downloaded` map. -/
theorem c5_failure_leaves_ledger_unchanged (env : CrawlEnv) (e : Entry)
    (s : CrawlState) (now : Nat) (c : CrawlerState)
    (lenv : LegEnv) (le : LegEntry) (r : LegRun) (lid title err q : String) :
    (StateManager.is_processed s.processed e.url = false →
      env.fetch s.fetchLog.length = FetchOutcome.failure
        ∨ (env.fetch s.fetchLog.length = FetchOutcome.raised
            ∧ env.fetch (s.fetchLog.length + 1) ≠ FetchOutcome.success) →
      (processEntry env false e s).1.stats.failed = s.stats.failed + 1
      ∧ (processEntry env false e s).1.processed = s.processed
      ∧ (processEntry env false e s).1.stats.new_downloaded = s.stats.new_downloaded)
    ∧ (CrawlerState.mark_failed now lid title err c).is_downloaded q
        = c.is_downloaded q
    ∧ (r.state.is_downloaded le.leg_id = false → lenv.dl r.dlCalls = false →
        (legProcessEntry lenv true now le r).1.total_fail = r.total_fail + 1
        ∧ (legProcessEntry lenv true now le r).1.state.downloaded
            = r.state.downloaded) := by
  refine ⟨?_, rfl, ?_⟩
  · intro hp hfail
    rcases hfail with h1 | ⟨h1, h2⟩
    · simp [processEntry, hp, h1, afterItem_stats, afterItem_processed]
    · cases h2' : env.fetch (s.fetchLog.length + 1) with
      | success => exact absurd h2' h2
      | failure =>
          simp [processEntry, hp, h1, h2', afterItem_stats, afterItem_processed]
      | raised =>
          simp [processEntry, hp, h1, h2', afterItem_stats, afterItem_processed]
  · intro hdl hfail
    simp [legProcessEntry, hdl, hfail, CrawlerState.mark_failed]

/-- C5 witness: a concrete unprocessed item whose single fetch returns
`False`, and a concrete legislation row whose download fails: both are
counted failed with the dedup state untouched. -/
theorem c5_failure_leaves_ledger_unchanged_witness :
    StateManager.is_processed [] "https://x/b" = false
    ∧ (FetchOutcome.failure = FetchOutcome.failure
        ∨ (FetchOutcome.failure = FetchOutcome.raised
            ∧ FetchOutcome.failure ≠ FetchOutcome.success))
    ∧ ((processEntry ⟨1, fun _ => [], fun _ => FetchOutcome.failure⟩ false
          ⟨"B", "https://x/b", "Order", "2024"⟩
          ⟨[], [], ⟨0, 0, 0, 0, 0⟩, [], 0, [], 0⟩).1.stats.failed = 0 + 1
        ∧ (processEntry ⟨1, fun _ => [], fun _ => FetchOutcome.failure⟩ false
          ⟨"B", "https://x/b", "Order", "2024"⟩
          ⟨[], [], ⟨0, 0, 0, 0, 0⟩, [], 0, [], 0⟩).1.processed = []
        ∧ (processEntry ⟨1, fun _ => [], fun _ => FetchOutcome.failure⟩ false
          ⟨"B", "https://x/b", "Order", "2024"⟩
          ⟨[], [], ⟨0, 0, 0, 0, 0⟩, [], 0, [], 0⟩).1.stats.new_downloaded = 0)
    ∧ ((legProcessEntry ⟨fun _ => false⟩ true 3 ⟨"77", "Law 77", "7", "2024"⟩
          ⟨⟨"crawler_state.json", 0, [], []⟩, 0, 0, 0, 0, 0⟩).1.total_fail = 0 + 1
        ∧ (legProcessEntry ⟨fun _ => false⟩ true 3 ⟨"77", "Law 77", "7", "2024"⟩
          ⟨⟨"crawler_state.json", 0, [], []⟩, 0, 0, 0, 0, 0⟩).1.state.downloaded
            = []) := by
  refine ⟨by decide, Or.inl rfl, ?_, ?_⟩
  · exact (c5_failure_leaves_ledger_unchanged
      ⟨1, fun _ => [], fun _ => FetchOutcome.failure⟩
      ⟨"B", "https://x/b", "Order", "2024"⟩
      ⟨[], [], ⟨0, 0, 0, 0, 0⟩, [], 0, [], 0⟩ 3 ⟨"crawler_state.json", 0, [], []⟩
      ⟨fun _ => false⟩ ⟨"77", "Law 77", "7", "2024"⟩
      ⟨⟨"crawler_state.json", 0, [], []⟩, 0, 0, 0, 0, 0⟩ "77" "Law 77" "e" "77").1
      (by decide) (Or.inl rfl)
  · exact (c5_failure_leaves_ledger_unchanged
      ⟨1, fun _ => [], fun _ => FetchOutcome.failure⟩
      ⟨"B", "https://x/b", "Order", "2024"⟩
      ⟨[], [], ⟨0, 0, 0, 0, 0⟩, [], 0, [], 0⟩ 3 ⟨"crawler_state.json", 0, [], []⟩
      ⟨fun _ => false⟩ ⟨"77", "Law 77", "7", "2024"⟩
      ⟨⟨"crawler_state.json", 0, [], []⟩, 0, 0, 0, 0, 0⟩ "77" "Law 77" "e" "77").2.2
      (by decide) rfl

-- ---------------------------------------------------------------------
-- Lemmas about the daily crawl loop
-- ---------------------------------------------------------------------

theorem hasUrl_append (a b : List String) (u : String) :
    hasUrl (a ++ b) u = (hasUrl a u || hasUrl b u) := by
  induction a with
  | nil => simp [hasUrl]
  | cons x rest ih =>
      by_cases h : x = u
      · simp [hasUrl, h]
      · simp [hasUrl, h, ih]

theorem hasUrl_addUrl_self (s : List String) (u : String) :
    hasUrl (addUrl s u) u = true := by
  unfold addUrl
  by_cases h : hasUrl s u = true
  · simp [h]
  · simp [h, hasUrl_append, hasUrl]

theorem hasUrl_addUrl_mono (s : List String) (u v : String)
    (h : hasUrl s u = true) : hasUrl (addUrl s v) u = true := by
  unfold addUrl
  by_cases hv : hasUrl s v = true
  · simp [hv, h]
  · simp [hv, hasUrl_append, h]

theorem processEntry_skip (env : CrawlEnv) (d : Bool) (e : Entry) (s : CrawlState)
    (h : StateManager.is_processed s.processed e.url = true) :
    processEntry env d e s =
      ({ s with stats := { s.stats with skipped := s.stats.skipped + 1 },
                entriesSeen := s.entriesSeen + 1 }, true) := by
  simp [processEntry, h]

theorem processEntry_processed_mono (env : CrawlEnv) (d : Bool) (e : Entry)
    (s : CrawlState) (u : String) (h : hasUrl s.processed u = true) :
    hasUrl (processEntry env d e s).1.processed u = true := by
  unfold processEntry
  by_cases hp : StateManager.is_processed s.processed e.url
  · simp [hp, h]
  · by_cases hd : d
    · simp [hp, hd, h]
    · simp only [hp, hd]
      cases h1 : env.fetch s.fetchLog.length with
      | success => simp [afterItem_processed, hasUrl_addUrl_mono _ _ _ h]
      | failure => simp [afterItem_processed, h]
      | raised =>
          cases h2 : env.fetch (s.fetchLog ++ [pyStrip e.url]).length with
          | success => simp [h2, afterItem_processed, hasUrl_addUrl_mono _ _ _ h]
          | failure => simp [h2, afterItem_processed, h]
          | raised => simp [h2, afterItem_processed, h]

theorem processPage_processed_mono (env : CrawlEnv) (d : Bool)
    (entries : List Entry) :
    ∀ (s : CrawlState) (u : String), hasUrl s.processed u = true →
      hasUrl (processPage env d entries s).1.processed u = true := by
  induction entries with
  | nil => intro s u h; simpa [processPage] using h
  | cons e rest ih =>
      intro s u h
      simp only [processPage]
      rcases hpe : processEntry env d e s with ⟨s', sk⟩
      have h' : hasUrl s'.processed u = true := by
        have := processEntry_processed_mono env d e s u h
        rw [hpe] at this
        exact this
      rcases hpp : processPage env d rest s' with ⟨s'', skR, nwR⟩
      have h'' := ih s' u h'
      rw [hpp] at h''
      by_cases hsk : sk <;> simp [hsk, h'']

theorem crawlLoop_processed_mono (env : CrawlEnv) (d : Bool) :
    ∀ (fuel pg : Nat) (s : CrawlState) (u : String),
      hasUrl s.processed u = true →
      hasUrl (crawlLoop env d fuel pg s).processed u = true := by
  intro fuel
  induction fuel with
  | zero => intro pg s u h; simpa [crawlLoop] using h
  | succ n ih =>
      intro pg s u h
      simp only [crawlLoop]
      rcases hpp : processPage env d (env.listing pg)
          { s with stats := { s.stats with
              pages_scanned := s.stats.pages_scanned + 1 } } with ⟨s', sk, nw⟩
      have h' : hasUrl s'.processed u = true := by
        have := processPage_processed_mono env d (env.listing pg)
          { s with stats := { s.stats with
              pages_scanned := s.stats.pages_scanned + 1 } } u h
        rw [hpp] at this
        exact this
      simp only [hpp]
      split
      · exact h'
      · exact ih (pg + 1) s' u h'

theorem processEntry_marks (env : CrawlEnv) (e : Entry) (s : CrawlState)
    (hf : ∀ k, env.fetch k = FetchOutcome.success) :
    hasUrl (processEntry env false e s).1.processed (pyStrip e.url) = true := by
  by_cases hp : StateManager.is_processed s.processed e.url
  · have hp' : hasUrl s.processed (pyStrip e.url) = true := by
      simpa [StateManager.is_processed] using hp
    simp [processEntry, hp, hp']
  · simp only [processEntry, hp]
    rw [hf]
    simp [afterItem_processed, hasUrl_addUrl_self]

theorem processPage_marks (env : CrawlEnv)
    (hf : ∀ k, env.fetch k = FetchOutcome.success) (entries : List Entry) :
    ∀ (s : CrawlState), ∀ e ∈ entries,
      hasUrl (processPage env false entries s).1.processed (pyStrip e.url) = true := by
  induction entries with
  | nil => intro s e he; cases he
  | cons a rest ih =>
      intro s e he
      simp only [processPage]
      rcases hpe : processEntry env false a s with ⟨s', sk⟩
      rcases hpp : processPage env false rest s' with ⟨s'', skR, nwR⟩
      rcases List.mem_cons.mp he with he | he
      · subst he
        have h1 : hasUrl s'.processed (pyStrip e.url) = true := by
          have h0 := processEntry_marks env e s hf
          rw [hpe] at h0
          exact h0
        have h2 := processPage_processed_mono env false rest s' (pyStrip e.url) h1
        rw [hpp] at h2
        by_cases hsk : sk <;> simp [hsk, h2]
      · have h2 := ih s' e he
        rw [hpp] at h2
        by_cases hsk : sk <;> simp [hsk, h2]

theorem processPage_all_processed (env : CrawlEnv) (d : Bool) (entries : List Entry) :
    ∀ s : CrawlState,
      (∀ e ∈ entries, StateManager.is_processed s.processed e.url = true) →
      processPage env d entries s =
        ({ s with
            stats := { s.stats with skipped := s.stats.skipped + entries.length },
            entriesSeen := s.entriesSeen + entries.length },
         entries.length, 0) := by
  induction entries with
  | nil => intro s h; simp [processPage]
  | cons a rest ih =>
      intro s h
      have ha : StateManager.is_processed s.processed a.url = true := h a (by simp)
      have h' : ∀ e ∈ rest, StateManager.is_processed s.processed e.url = true :=
        fun e he => h e (by simp [he])
      simp only [processPage, processEntry_skip env d a s ha, if_true]
      rw [ih { s with
          stats := { s.stats with skipped := s.stats.skipped + 1 },
          entriesSeen := s.entriesSeen + 1 } h']
      dsimp only
      simp only [List.length_cons, Prod.mk.injEq, CrawlState.mk.injEq,
        RunStats.mk.injEq, and_true, true_and]
      omega

theorem second_run_skips (env : CrawlEnv)
    (hf : ∀ k, env.fetch k = FetchOutcome.success) :
    ∀ (fuel pg : Nat) (s t : CrawlState),
      t.processed = (crawlLoop env false fuel pg s).processed →
      (crawlLoop env false fuel pg t).processed = t.processed
      ∧ (crawlLoop env false fuel pg t).fetchLog = t.fetchLog
      ∧ (crawlLoop env false fuel pg t).stats.new_downloaded
          = t.stats.new_downloaded
      ∧ (crawlLoop env false fuel pg t).stats.failed = t.stats.failed
      ∧ (crawlLoop env false fuel pg t).stats.skipped + t.entriesSeen
          = t.stats.skipped + (crawlLoop env false fuel pg t).entriesSeen := by
  intro fuel
  induction fuel with
  | zero =>
      intro pg s t ht
      simp [crawlLoop]
  | succ n ih =>
      intro pg s t ht
      by_cases hE : env.listing pg = []
      · have hrun1 : crawlLoop env false (n + 1) pg s
            = crawlLoop env false n (pg + 1)
              { s with stats := { s.stats with
                  pages_scanned := s.stats.pages_scanned + 1 } } := by
          simp [crawlLoop, hE, processPage]
        have hrun2 : crawlLoop env false (n + 1) pg t
            = crawlLoop env false n (pg + 1)
              { t with stats := { t.stats with
                  pages_scanned := t.stats.pages_scanned + 1 } } := by
          simp [crawlLoop, hE, processPage]
        rw [hrun1] at ht
        rw [hrun2]
        exact ih (pg + 1) _ { t with stats := { t.stats with
            pages_scanned := t.stats.pages_scanned + 1 } } ht
      · have hmark : ∀ e ∈ env.listing pg,
            hasUrl (crawlLoop env false (n + 1) pg s).processed (pyStrip e.url)
              = true := by
          intro e he
          simp only [crawlLoop]
          rcases hpp : processPage env false (env.listing pg)
              { s with stats := { s.stats with
                  pages_scanned := s.stats.pages_scanned + 1 } } with ⟨s', sk, nw⟩
          have h1 := processPage_marks env hf (env.listing pg)
            { s with stats := { s.stats with
                pages_scanned := s.stats.pages_scanned + 1 } } e he
          rw [hpp] at h1
          simp only [hpp]
          split
          · exact h1
          · exact crawlLoop_processed_mono env false n (pg + 1) s' _ h1
        have hproc : ∀ e ∈ env.listing pg,
            StateManager.is_processed t.processed e.url = true := by
          intro e he
          show hasUrl t.processed (pyStrip e.url) = true
          rw [ht]
          exact hmark e he
        have hpp2 := processPage_all_processed env false (env.listing pg)
          { t with stats := { t.stats with
              pages_scanned := t.stats.pages_scanned + 1 } } hproc
        have hrun2 : crawlLoop env false (n + 1) pg t
            = { t with
                stats := { t.stats with
                  pages_scanned := t.stats.pages_scanned + 1,
                  skipped := t.stats.skipped + (env.listing pg).length },
                entriesSeen := t.entriesSeen + (env.listing pg).length } := by
          simp only [crawlLoop, hpp2]
          simp [hE]
        rw [hrun2]
        refine ⟨rfl, rfl, rfl, rfl, ?_⟩
        simp
        omega

-- ---------------------------------------------------------------------
-- C3: idempotence of a repeated run
-- ---------------------------------------------------------------------

/-- C3.  Running `crawl_category` a second time against the same Page
Source, after a first run in which every Document Fetcher call succeeded,
starting from fresh run statistics but the Ledger produced by the first
run: the second run downloads nothing, fails nothing, performs zero
Document Fetcher calls, leaves the processed-URL set unchanged, and counts
as skipped exactly the items it examined. -/
theorem c3_idempotent_second_run (env : CrawlEnv)
    (hf : ∀ k, env.fetch k = FetchOutcome.success)
    (name : String) (now now2 : Nat) (s0 t0 : CrawlState)
    (hproc : t0.processed = (crawl_category env false name now s0).processed)
    (hnd : t0.stats.new_downloaded = 0) (hfl : t0.stats.failed = 0)
    (hsk : t0.stats.skipped = 0) (hes : t0.entriesSeen = 0)
    (hlog : t0.fetchLog = []) :
    (crawl_category env false name now2 t0).stats.new_downloaded = 0
    ∧ (crawl_category env false name now2 t0).stats.failed = 0
    ∧ (crawl_category env false name now2 t0).fetchLog = []
    ∧ (crawl_category env false name now2 t0).processed = t0.processed
    ∧ (crawl_category env false name now2 t0).stats.skipped
        = (crawl_category env false name now2 t0).entriesSeen := by
  have h := second_run_skips env hf env.totalPages 1
    { s0 with
      categories := setKey name ⟨"in_progress", now⟩ s0.categories,
      stats := { s0.stats with
        categories_scanned := s0.stats.categories_scanned + 1 } }
    { t0 with
      categories := setKey name ⟨"in_progress", now2⟩ t0.categories,
      stats := { t0.stats with
        categories_scanned := t0.stats.categories_scanned + 1 } }
    hproc
  obtain ⟨h1, h2, h3, h4, h5⟩ := h
  refine ⟨h3.trans hnd, h4.trans hfl, h2.trans hlog, h1, ?_⟩
  have h5' : (crawlLoop env false env.totalPages 1
      { t0 with
        categories := setKey name ⟨"in_progress", now2⟩ t0.categories,
        stats := { t0.stats with
          categories_scanned := t0.stats.categories_scanned + 1 } }).stats.skipped
        + t0.entriesSeen
      = t0.stats.skipped
        + (crawlLoop env false env.totalPages 1
      { t0 with
        categories := setKey name ⟨"in_progress", now2⟩ t0.categories,
        stats := { t0.stats with
          categories_scanned := t0.stats.categories_scanned + 1 } }).entriesSeen := h5
  show (crawlLoop env false env.totalPages 1
      { t0 with
        categories := setKey name ⟨"in_progress", now2⟩ t0.categories,
        stats := { t0.stats with
          categories_scanned := t0.stats.categories_scanned + 1 } }).stats.skipped
    = (crawlLoop env false env.totalPages 1
      { t0 with
        categories := setKey name ⟨"in_progress", now2⟩ t0.categories,
        stats := { t0.stats with
          categories_scanned := t0.stats.categories_scanned + 1 } }).entriesSeen
  omega

/-- Concrete one-page, one-item environment with an always-succeeding
Document Fetcher, used as witness input. -/
def envW : CrawlEnv :=
  ⟨1, fun _ => [⟨"A", "https://x/a", "Order", "2024"⟩],
   fun _ => FetchOutcome.success⟩

/-- Zeroed run statistics. -/
def zeroStats : RunStats := ⟨0, 0, 0, 0, 0⟩

/-- Fresh crawl state: empty Ledger, no categories, zero counters. -/
def s0W : CrawlState := ⟨[], [], zeroStats, [], 0, [], 0⟩

/-- Crawl state at the start of the second witness run: fresh counters, the
Ledger left by the first run. -/
def t0W : CrawlState :=
  ⟨(crawl_category envW false "Orders" 0 s0W).processed, [], zeroStats,
   [], 0, [], 0⟩

/-- C3 witness: the theorem applied at the concrete one-item environment,
with every hypothesis discharged. -/
theorem c3_idempotent_second_run_witness :
    (∀ k, envW.fetch k = FetchOutcome.success)
    ∧ ((crawl_category envW false "Orders" 9 t0W).stats.new_downloaded = 0
       ∧ (crawl_category envW false "Orders" 9 t0W).stats.failed = 0
       ∧ (crawl_category envW false "Orders" 9 t0W).fetchLog = []
       ∧ (crawl_category envW false "Orders" 9 t0W).processed = t0W.processed
       ∧ (crawl_category envW false "Orders" 9 t0W).stats.skipped
           = (crawl_category envW false "Orders" 9 t0W).entriesSeen) := by
  refine ⟨fun k => rfl, ?_⟩
  exact c3_idempotent_second_run envW (fun k => rfl) "Orders" 0 9 s0W t0W
    rfl rfl rfl rfl rfl rfl

theorem crawlLoop_stop_on_seen (env : CrawlEnv) (d : Bool) (fuel pg : Nat)
    (s : CrawlState) (hne : ¬env.listing pg = [])
    (hall : ∀ e ∈ env.listing pg,
      StateManager.is_processed s.processed e.url = true) :
    crawlLoop env d (fuel + 1) pg s
      = { s with
          stats := { s.stats with
            pages_scanned := s.stats.pages_scanned + 1,
            skipped := s.stats.skipped + (env.listing pg).length },
          entriesSeen := s.entriesSeen + (env.listing pg).length } := by
  have hpp := processPage_all_processed env d (env.listing pg)
    { s with stats := { s.stats with
        pages_scanned := s.stats.pages_scanned + 1 } } hall
  simp only [crawlLoop, hpp]
  simp [hne]

-- ---------------------------------------------------------------------
-- Lemmas about the judgments-variant page loop
-- ---------------------------------------------------------------------

theorem jAfterItem_pagesRequested (s : JState) :
    (jAfterItem s).pagesRequested = s.pagesRequested := by
  unfold jAfterItem
  by_cases h : 40 ≤ s.itemsSinceRestart + 1 <;> simp [h]

theorem jProcessEntry_pagesRequested (env : JEnv) (now : Nat) (e : Entry)
    (s : JState) :
    (jProcessEntry env now e s).1.pagesRequested = s.pagesRequested := by
  unfold jProcessEntry
  by_cases h1 : jIsProcessed s.tracker e.url
  · simp [h1]
  · by_cases h2 : env.localFile e
    · simp [h1, h2]
    · simp only [h1, h2]
      cases h3 : env.fetch s.fetchCalls with
      | successMarked => simp [jAfterItem_pagesRequested]
      | successUnmarked => simp [jAfterItem_pagesRequested]
      | failure => simp [jAfterItem_pagesRequested]
      | raised =>
          cases h4 : env.fetch (s.fetchCalls + 1) with
          | successMarked => simp [h4, jAfterItem_pagesRequested]
          | successUnmarked => simp [h4, jAfterItem_pagesRequested]
          | failure => simp [h4, jAfterItem_pagesRequested]
          | raised => simp [h4, jAfterItem_pagesRequested]

theorem jProcessPage_pagesRequested (env : JEnv) (now : Nat)
    (entries : List Entry) :
    ∀ s : JState, (jProcessPage env now entries s).1.pagesRequested
      = s.pagesRequested := by
  induction entries with
  | nil => intro s; simp [jProcessPage]
  | cons e rest ih =>
      intro s
      simp only [jProcessPage]
      rcases hpe : jProcessEntry env now e s with ⟨s', sk⟩
      have h1 := jProcessEntry_pagesRequested env now e s
      rw [hpe] at h1
      have h2 := ih s'
      exact h2.trans h1

theorem jLoop_resume_requests_all (env : JEnv) (now : Nat) :
    ∀ (fuel pg : Nat) (s : JState),
      (jLoop env now false fuel pg s).pagesRequested
        = s.pagesRequested + fuel := by
  intro fuel
  induction fuel with
  | zero => intro pg s; simp [jLoop]
  | succ n ih =>
      intro pg s
      simp only [jLoop]
      rcases hpp : jProcessPage env now (env.listing pg)
          { s with pagesRequested := s.pagesRequested + 1 } with ⟨s', sk⟩
      have h1 := jProcessPage_pagesRequested env now (env.listing pg)
        { s with pagesRequested := s.pagesRequested + 1 }
      rw [hpp] at h1
      have h1' : s'.pagesRequested = s.pagesRequested + 1 := h1
      simp only [hpp]
      have h2 := ih (pg + 1) s'
      simp only [Bool.false_eq_true, and_false, if_false]
      omega

-- ---------------------------------------------------------------------
-- C1: the stop-on-fully-seen-page shortcut vs the Category Cursor
-- ---------------------------------------------------------------------

/-- Concrete two-page environment whose first page holds one
already-processed item. -/
def envC1 : CrawlEnv :=
  ⟨2,
   fun pg => if pg = 1 then [⟨"A", "https://x/a", "Order", "2024"⟩]
     else [⟨"B", "https://x/b", "Order", "2024"⟩],
   fun _ => FetchOutcome.success⟩

/-- Crawl state whose Ledger already holds the first page's item and whose
Category Cursor has no entry (status not `completed`). -/
def s0C1 : CrawlState := ⟨["https://x/a"], [], zeroStats, [], 0, [], 0⟩

/-- C1 counterexample.  The daily crawler's `crawl_category` uses the
stop-on-fully-seen-page shortcut even for a collection whose Category
Cursor status is not `completed`: with two declared pages and a fully-seen
first page it scans one page only, never requesting page 2. -/
theorem c1_counterexample :
    ScraperTracker.is_category_complete s0C1.categories "Orders" = false
    ∧ envC1.totalPages = 2
    ∧ (crawl_category envC1 false "Orders" 0 s0C1).stats.pages_scanned = 1
    ∧ (crawl_category envC1 false "Orders" 0 s0C1).stats.skipped = 1 := by
  exact ⟨rfl, rfl, by decide, by decide⟩

/-- C1 amended.  The gap-fill contract holds in the judgments variant
(`DIFCCourtsScraper.scrape_category`): when the category status is anything
other than `completed` at scan start, no early stop happens and every page
of the declared range is requested.  The daily crawler's `crawl_category`,
by contrast, stops on any non-empty fully-seen page, with no reference to
the Category Cursor (its stop state is independent of the category map). -/
theorem c1_gap_fill_resume_mode (env : JEnv) (now : Nat) (name : String)
    (s : JState)
    (h : ScraperTracker.is_category_complete s.categories name = false)
    (cenv : CrawlEnv) (d : Bool) (fuel pg : Nat) (cs : CrawlState)
    (hne : ¬cenv.listing pg = [])
    (hall : ∀ e ∈ cenv.listing pg,
      StateManager.is_processed cs.processed e.url = true) :
    (scrape_category env now name s).pagesRequested
      = s.pagesRequested + env.totalPages
    ∧ crawlLoop cenv d (fuel + 1) pg cs
        = { cs with
            stats := { cs.stats with
              pages_scanned := cs.stats.pages_scanned + 1,
              skipped := cs.stats.skipped + (cenv.listing pg).length },
            entriesSeen := cs.entriesSeen + (cenv.listing pg).length } := by
  constructor
  · unfold scrape_category
    rw [h]
    exact jLoop_resume_requests_all env now env.totalPages 1
      { s with categories := setKey name ⟨"in_progress", now⟩ s.categories }
  · exact crawlLoop_stop_on_seen cenv d fuel pg cs hne hall

/-- C1 witness: the amended theorem applied to a concrete two-page
judgments environment with an unknown-status category (both pages are
requested), and to a concrete fully-seen page for the daily crawler. -/
theorem c1_gap_fill_resume_mode_witness :
    ScraperTracker.is_category_complete
        ([] : List (String × CatInfo)) "Orders" = false
    ∧ ¬envC1.listing 1 = []
    ∧ (∀ e ∈ envC1.listing 1,
        StateManager.is_processed s0C1.processed e.url = true)
    ∧ (scrape_category
        ⟨2, fun _ => [⟨"A", "https://x/a", "Order", "2024"⟩],
         fun _ => DetailOutcome.successMarked, fun _ => false, fun _ => true⟩
        0 "Orders" ⟨[], [], 0, 0, 0, 0, 0, 0⟩).pagesRequested = 0 + 2 := by
  refine ⟨rfl, by decide, by decide, ?_⟩
  exact (c1_gap_fill_resume_mode
    ⟨2, fun _ => [⟨"A", "https://x/a", "Order", "2024"⟩],
     fun _ => DetailOutcome.successMarked, fun _ => false, fun _ => true⟩
    0 "Orders" ⟨[], [], 0, 0, 0, 0, 0, 0⟩ rfl
    envC1 false 0 1 s0C1 (by decide) (by decide)).1

-- ---------------------------------------------------------------------
-- C8: what an empty page does to the pagination loop
-- ---------------------------------------------------------------------

/-- Concrete two-page environment whose first page is empty. -/
def envC8 : CrawlEnv :=
  ⟨2,
   fun pg => if pg = 1 then []
     else [⟨"B", "https://x/b", "Order", "2024"⟩],
   fun _ => FetchOutcome.success⟩

/-- C8 counterexample.  In the daily crawler an empty page does not
terminate pagination: with an empty page 1 and two declared pages,
`crawl_category` still requests page 2 (`pages_scanned = 2`, one download
from page 2), refuting the claim for this variant. -/
theorem c8_counterexample :
    envC8.listing 1 = []
    ∧ (crawl_category envC8 false "Orders" 0 s0W).stats.pages_scanned = 2
    ∧ (crawl_category envC8 false "Orders" 0 s0W).stats.new_downloaded = 1 := by
  exact ⟨rfl, by decide, by decide⟩

/-- C8 amended.  An empty page always terminates pagination in the
legislation variant: `scrape_legislations` breaks before processing when
the row parser yields nothing, and the result does not depend on any later
page.  In the judgments crawler variants an empty page does not break the
page loop: the loop continues with the next page of the declared range. -/
theorem c8_empty_page_behavior (lenv : LegEnv) (weekly resume : Bool)
    (now : Nat) (rest : List (List LegEntry)) (pageNum consec : Nat)
    (r : LegRun) (env : CrawlEnv) (dryRun : Bool) (fuel pg : Nat)
    (s : CrawlState) (hE : env.listing pg = []) :
    legCrawl lenv weekly resume now ([] :: rest) pageNum consec r
      = { r with pagesRequested := r.pagesRequested + 1 }
    ∧ crawlLoop env dryRun (fuel + 1) pg s
        = crawlLoop env dryRun fuel (pg + 1)
            { s with stats := { s.stats with
                pages_scanned := s.stats.pages_scanned + 1 } } := by
  constructor
  · simp [legCrawl]
  · simp [crawlLoop, hE, processPage]

/-- C8 witness: the amended theorem applied at a concrete always-empty
listing. -/
theorem c8_empty_page_behavior_witness :
    ((⟨2, fun _ => [], fun _ => FetchOutcome.success⟩ : CrawlEnv).listing 1 = [])
    ∧ crawlLoop ⟨2, fun _ => [], fun _ => FetchOutcome.success⟩ false 1 1 s0W
        = crawlLoop ⟨2, fun _ => [], fun _ => FetchOutcome.success⟩ false 0 2
            { s0W with stats := { s0W.stats with
                pages_scanned := s0W.stats.pages_scanned + 1 } } := by
  refine ⟨rfl, ?_⟩
  exact (c8_empty_page_behavior ⟨fun _ => false⟩ true true 0 [] 1 0
    ⟨⟨"crawler_state.json", 0, [], []⟩, 0, 0, 0, 0, 0⟩
    ⟨2, fun _ => [], fun _ => FetchOutcome.success⟩ false 0 1 s0W rfl).2

-- ---------------------------------------------------------------------
-- Lemmas about the legislation pagination loop
-- ---------------------------------------------------------------------

theorem legProcessEntry_skip (env : LegEnv) (now : Nat) (e : LegEntry)
    (r : LegRun) (hd : r.state.is_downloaded e.leg_id = true) :
    legProcessEntry env true now e r
      = ({ r with total_skip := r.total_skip + 1 }, true) := by
  simp [legProcessEntry, hd]

theorem legProcessEntry_attempt (env : LegEnv) (resume : Bool) (now : Nat)
    (e : LegEntry) (r : LegRun) :
    legProcessEntry env resume now e r
        = ({ r with total_skip := r.total_skip + 1 }, true)
    ∨ (legProcessEntry env resume now e r).2 = false := by
  unfold legProcessEntry
  by_cases h : resume = true ∧ r.state.is_downloaded e.leg_id = true
  · left
    simp [h]
  · right
    simp only [h]
    by_cases hdl : env.dl r.dlCalls = true <;> simp [hdl]

theorem legProcessPage_all_downloaded (env : LegEnv) (now : Nat)
    (entries : List LegEntry) :
    ∀ r : LegRun, (∀ e ∈ entries, r.state.is_downloaded e.leg_id = true) →
      legProcessPage env true now entries r
        = ({ r with total_skip := r.total_skip + entries.length },
           entries.length, 0) := by
  induction entries with
  | nil => intro r h; simp [legProcessPage]
  | cons a rest ih =>
      intro r h
      have ha : r.state.is_downloaded a.leg_id = true := h a (by simp)
      have h' : ∀ e ∈ rest, r.state.is_downloaded e.leg_id = true :=
        fun e he => h e (by simp [he])
      simp only [legProcessPage, legProcessEntry_skip env now a r ha, if_true]
      rw [ih { r with total_skip := r.total_skip + 1 } h']
      dsimp only
      simp only [List.length_cons, Prod.mk.injEq, LegRun.mk.injEq, and_true,
        true_and]
      omega

theorem legProcessPage_skip_le (env : LegEnv) (resume : Bool) (now : Nat)
    (entries : List LegEntry) :
    ∀ r : LegRun, (legProcessPage env resume now entries r).2.1
      ≤ entries.length := by
  induction entries with
  | nil => intro r; simp [legProcessPage]
  | cons a rest ih =>
      intro r
      simp only [legProcessPage]
      rcases hpe : legProcessEntry env resume now a r with ⟨r', sk⟩
      rcases hpp : legProcessPage env resume now rest r' with ⟨r'', skR, dlR⟩
      have h1 := ih r'
      rw [hpp] at h1
      dsimp only at h1
      simp only [hpp]
      by_cases hsk : sk <;> simp [hsk, List.length_cons] <;> omega

theorem legProcessPage_not_all_skip (env : LegEnv) (now : Nat)
    (entries : List LegEntry) :
    ∀ (r : LegRun) (e : LegEntry), e ∈ entries →
      r.state.is_downloaded e.leg_id = false →
      (legProcessPage env true now entries r).2.1 ≠ entries.length := by
  induction entries with
  | nil => intro r e he; cases he
  | cons a rest ih =>
      intro r e he hd
      simp only [legProcessPage]
      rcases List.mem_cons.mp he with he' | he'
      · subst he'
        have hpe : (legProcessEntry env true now e r).2 = false := by
          unfold legProcessEntry
          simp only [hd]
          simp only [Bool.false_eq_true, and_false, if_false]
          split <;> rfl
        rcases hpe2 : legProcessEntry env true now e r with ⟨r', sk⟩
        rw [hpe2] at hpe
        dsimp at hpe
        subst hpe
        rcases hpp : legProcessPage env true now rest r' with ⟨r'', skR, dlR⟩
        have hle := legProcessPage_skip_le env true now rest r'
        rw [hpp] at hle
        simp only [hpp]
        simp only [List.length_cons, Bool.false_eq_true, if_false]
        dsimp only at hle ⊢
        omega
      · by_cases hg : r.state.is_downloaded a.leg_id = true
        · rw [legProcessEntry_skip env now a r hg]
          rcases hpp : legProcessPage env true now rest
              { r with total_skip := r.total_skip + 1 } with ⟨r'', skR, dlR⟩
          have hd' : ({ r with total_skip := r.total_skip + 1 } :
              LegRun).state.is_downloaded e.leg_id = false := hd
          have hne := ih { r with total_skip := r.total_skip + 1 } e he' hd'
          rw [hpp] at hne
          simp only [hpp]
          simp only [List.length_cons, if_true]
          dsimp only at hne ⊢
          omega
        · have hpe : (legProcessEntry env true now a r).2 = false := by
            unfold legProcessEntry
            simp only [hg]
            simp only [Bool.false_eq_true, and_false, if_false]
            split <;> rfl
          rcases hpe2 : legProcessEntry env true now a r with ⟨r', sk⟩
          rw [hpe2] at hpe
          dsimp at hpe
          subst hpe
          rcases hpp : legProcessPage env true now rest r' with ⟨r'', skR, dlR⟩
          have hle := legProcessPage_skip_le env true now rest r'
          rw [hpp] at hle
          simp only [hpp]
          simp only [List.length_cons, Bool.false_eq_true, if_false]
          dsimp only at hle ⊢
          omega

theorem legProcessEntry_pagesRequested (env : LegEnv) (resume : Bool)
    (now : Nat) (e : LegEntry) (r : LegRun) :
    (legProcessEntry env resume now e r).1.pagesRequested = r.pagesRequested := by
  unfold legProcessEntry
  by_cases h : resume = true ∧ r.state.is_downloaded e.leg_id = true
  · simp [h]
  · rw [if_neg h]
    by_cases hdl : env.dl r.dlCalls = true <;> simp [hdl]

theorem legProcessPage_pagesRequested (env : LegEnv) (resume : Bool)
    (now : Nat) (entries : List LegEntry) :
    ∀ r : LegRun,
      (legProcessPage env resume now entries r).1.pagesRequested
        = r.pagesRequested := by
  induction entries with
  | nil => intro r; simp [legProcessPage]
  | cons a rest ih =>
      intro r
      simp only [legProcessPage]
      rcases hpe : legProcessEntry env resume now a r with ⟨r', sk⟩
      have h1 := legProcessEntry_pagesRequested env resume now a r
      rw [hpe] at h1
      dsimp only at h1
      rcases hpp : legProcessPage env resume now rest r' with ⟨r'', skR, dlR⟩
      have h2 := ih r'
      rw [hpp] at h2
      dsimp only at h2
      by_cases hsk : sk <;> simp [hsk] <;> omega

theorem legCrawl_pagesRequested_mono (env : LegEnv) (w res : Bool) (now : Nat) :
    ∀ (pages : List (List LegEntry)) (pn c : Nat) (r : LegRun),
      r.pagesRequested ≤ (legCrawl env w res now pages pn c r).pagesRequested := by
  intro pages
  induction pages with
  | nil => intro pn c r; simp [legCrawl]
  | cons entries rest ih =>
      intro pn c r
      rw [legCrawl]
      by_cases hE : entries.length = 0
      · rw [if_pos hE]
        dsimp only
        omega
      · rw [if_neg hE]
        rcases hpp : legProcessPage env res now entries
            { r with pagesRequested := r.pagesRequested + 1 } with ⟨r', skP, dlP⟩
        have hr' : r'.pagesRequested = r.pagesRequested + 1 := by
          have h0 := legProcessPage_pagesRequested env res now entries
            { r with pagesRequested := r.pagesRequested + 1 }
          rw [hpp] at h0
          exact h0
        simp only [hpp]
        split
        · split
          · show r.pagesRequested ≤ r'.pagesRequested
            omega
          · cases rest with
            | nil =>
                show r.pagesRequested ≤ r'.pagesRequested
                omega
            | cons p ps =>
                refine le_trans ?_ (ih (pn + 1) (c + 1)
                  { r' with state := r'.state.set_last_page pn })
                show r.pagesRequested ≤ r'.pagesRequested
                omega
        · cases rest with
          | nil =>
              show r.pagesRequested ≤ r'.pagesRequested
              omega
          | cons p ps =>
              refine le_trans ?_ (ih (pn + 1) (if w then 0 else c)
                { r' with state := r'.state.set_last_page pn })
              show r.pagesRequested ≤ r'.pagesRequested
              omega

theorem legCrawl_requests_head (env : LegEnv) (w res : Bool) (now : Nat)
    (page : List LegEntry) (rest : List (List LegEntry)) (pn c : Nat)
    (r : LegRun) :
    r.pagesRequested + 1
      ≤ (legCrawl env w res now (page :: rest) pn c r).pagesRequested := by
  rw [legCrawl]
  by_cases hE : page.length = 0
  · rw [if_pos hE]
  · rw [if_neg hE]
    rcases hpp : legProcessPage env res now page
        { r with pagesRequested := r.pagesRequested + 1 } with ⟨r', skP, dlP⟩
    have hr' : r'.pagesRequested = r.pagesRequested + 1 := by
      have h0 := legProcessPage_pagesRequested env res now page
        { r with pagesRequested := r.pagesRequested + 1 }
      rw [hpp] at h0
      exact h0
    simp only [hpp]
    split
    · split
      · show r.pagesRequested + 1 ≤ r'.pagesRequested
        omega
      · cases rest with
        | nil =>
            show r.pagesRequested + 1 ≤ r'.pagesRequested
            omega
        | cons p ps =>
            refine le_trans ?_ (legCrawl_pagesRequested_mono env w res now
              (p :: ps) (pn + 1) (c + 1)
              { r' with state := r'.state.set_last_page pn })
            show r.pagesRequested + 1 ≤ r'.pagesRequested
            omega
    · cases rest with
      | nil =>
          show r.pagesRequested + 1 ≤ r'.pagesRequested
          omega
      | cons p ps =>
          refine le_trans ?_ (legCrawl_pagesRequested_mono env w res now
            (p :: ps) (pn + 1) (if w then 0 else c)
            { r' with state := r'.state.set_last_page pn })
          show r.pagesRequested + 1 ≤ r'.pagesRequested
          omega

/-- State after processing one fully-already-downloaded page: one more page
requested, every row skipped, `last_page` updated, ledger untouched. -/
def afterSeenPage (p1 : List LegEntry) (pn : Nat) (r : LegRun) : LegRun :=
  { r with
    state := { r.state with last_page := pn },
    total_skip := r.total_skip + p1.length,
    pagesRequested := r.pagesRequested + 1 }

theorem legCrawl_step_all_seen (env : LegEnv) (now : Nat) (p1 : List LegEntry)
    (rest : List (List LegEntry)) (pn consec : Nat) (r : LegRun)
    (h1 : ¬p1.length = 0)
    (hall : ∀ e ∈ p1, r.state.is_downloaded e.leg_id = true) :
    legCrawl env true true now (p1 :: rest) pn consec r
      = if 2 ≤ consec + 1 then afterSeenPage p1 pn r
        else
          match rest with
          | [] => afterSeenPage p1 pn r
          | p :: ps => legCrawl env true true now (p :: ps) (pn + 1)
              (consec + 1) (afterSeenPage p1 pn r) := by
  rw [legCrawl]
  rw [if_neg h1]
  have hall' : ∀ e ∈ p1,
      ({ r with pagesRequested := r.pagesRequested + 1 } :
        LegRun).state.is_downloaded e.leg_id = true :=
    fun e he => hall e he
  rw [legProcessPage_all_downloaded env now p1
    { r with pagesRequested := r.pagesRequested + 1 } hall']
  dsimp only
  rw [if_pos (⟨rfl, rfl⟩ : true = true ∧ p1.length = p1.length)]
  rfl

theorem legCrawl_two_seen_stop (env : LegEnv) (now : Nat) (p1 : List LegEntry)
    (rest : List (List LegEntry)) (pn consec : Nat) (r : LegRun)
    (h1 : ¬p1.length = 0)
    (hall : ∀ e ∈ p1, r.state.is_downloaded e.leg_id = true)
    (hc : 2 ≤ consec + 1) :
    legCrawl env true true now (p1 :: rest) pn consec r
      = afterSeenPage p1 pn r := by
  rw [legCrawl_step_all_seen env now p1 rest pn consec r h1 hall, if_pos hc]

theorem legCrawl_one_seen_continue (env : LegEnv) (now : Nat)
    (p1 p : List LegEntry) (ps : List (List LegEntry)) (pn consec : Nat)
    (r : LegRun) (h1 : ¬p1.length = 0)
    (hall : ∀ e ∈ p1, r.state.is_downloaded e.leg_id = true)
    (hc : ¬2 ≤ consec + 1) :
    legCrawl env true true now (p1 :: p :: ps) pn consec r
      = legCrawl env true true now (p :: ps) (pn + 1) (consec + 1)
          (afterSeenPage p1 pn r) := by
  rw [legCrawl_step_all_seen env now p1 (p :: ps) pn consec r h1 hall,
    if_neg hc]

theorem legCrawl_consec_irrelevant (env : LegEnv) (now : Nat)
    (q1 : List LegEntry) (qrest : List (List LegEntry)) (qn c : Nat)
    (q : LegRun) (e : LegEntry) (he : e ∈ q1)
    (hq : q.state.is_downloaded e.leg_id = false) :
    legCrawl env true true now (q1 :: qrest) qn c q
      = legCrawl env true true now (q1 :: qrest) qn 0 q := by
  have hne : ¬q1.length = 0 := by
    cases q1 with
    | nil => cases he
    | cons a l => simp
  rcases hpp : legProcessPage env true now q1
      { q with pagesRequested := q.pagesRequested + 1 } with ⟨r', skP, dlP⟩
  have hq' : ({ q with pagesRequested := q.pagesRequested + 1 } :
      LegRun).state.is_downloaded e.leg_id = false := hq
  have hnall := legProcessPage_not_all_skip env now q1
    { q with pagesRequested := q.pagesRequested + 1 } e he hq'
  rw [hpp] at hnall
  dsimp only at hnall
  rw [legCrawl]
  conv_rhs => rw [legCrawl]
  rw [if_neg hne, if_neg hne, hpp]
  dsimp only
  conv_lhs => rw [if_neg (fun hcond => hnall hcond.2)]
  conv_rhs => rw [if_neg (fun hcond => hnall hcond.2)]
  cases qrest <;> rfl

-- ---------------------------------------------------------------------
-- C4: weekly two-consecutive-page confirmation
-- ---------------------------------------------------------------------

/-- C4.  In the weekly legislation variant: a single fully-already-
downloaded page does not stop the loop (the following page is still
requested); two consecutive fully-already-downloaded pages stop it (the
result is the same whatever pages follow); and a page containing any
not-yet-downloaded row resets the consecutive counter (the incoming
counter value is irrelevant to the rest of the run). -/
theorem c4_weekly_two_page_confirmation (env : LegEnv) (now pn : Nat)
    (r : LegRun) (p1 p2 : List LegEntry) (rest : List (List LegEntry))
    (h1 : ¬p1.length = 0) (h2 : ¬p2.length = 0)
    (hall1 : ∀ e ∈ p1, r.state.is_downloaded e.leg_id = true)
    (hall2 : ∀ e ∈ p2, r.state.is_downloaded e.leg_id = true)
    (q1 : List LegEntry) (qrest : List (List LegEntry)) (qn c c' : Nat)
    (q : LegRun) (e : LegEntry) (he : e ∈ q1)
    (hq : q.state.is_downloaded e.leg_id = false) :
    r.pagesRequested + 2
      ≤ (legCrawl env true true now (p1 :: p2 :: rest) pn 0 r).pagesRequested
    ∧ legCrawl env true true now (p1 :: p2 :: rest) pn 0 r
        = legCrawl env true true now [p1, p2] pn 0 r
    ∧ legCrawl env true true now (q1 :: qrest) qn c q
        = legCrawl env true true now (q1 :: qrest) qn c' q := by
  have hall2' : ∀ e ∈ p2,
      (afterSeenPage p1 pn r).state.is_downloaded e.leg_id = true :=
    fun x hx => hall2 x hx
  refine ⟨?_, ?_, ?_⟩
  · rw [legCrawl_one_seen_continue env now p1 p2 rest pn 0 r h1 hall1
      (by omega)]
    have hh := legCrawl_requests_head env true true now p2 rest (pn + 1)
      (0 + 1) (afterSeenPage p1 pn r)
    have hA : (afterSeenPage p1 pn r).pagesRequested
        = r.pagesRequested + 1 := rfl
    omega
  · rw [legCrawl_one_seen_continue env now p1 p2 rest pn 0 r h1 hall1
      (by omega)]
    rw [legCrawl_one_seen_continue env now p1 p2 [] pn 0 r h1 hall1
      (by omega)]
    rw [legCrawl_two_seen_stop env now p2 rest (pn + 1) (0 + 1)
      (afterSeenPage p1 pn r) h2 hall2' (by omega)]
    rw [legCrawl_two_seen_stop env now p2 [] (pn + 1) (0 + 1)
      (afterSeenPage p1 pn r) h2 hall2' (by omega)]
  · exact (legCrawl_consec_irrelevant env now q1 qrest qn c q e he hq).trans
      (legCrawl_consec_irrelevant env now q1 qrest qn c' q e he hq).symm

/-- Legislation run whose ledger already holds legislation id 5. -/
def rW : LegRun :=
  ⟨⟨"crawler_state.json", 0, [("5", ⟨"L5", "2020", "5", "k", 0⟩)], []⟩,
   0, 0, 0, 0, 0⟩

/-- C4 witness: the theorem applied at a concrete run with two identical
fully-downloaded pages followed by a third page, and a fresh-item page with
two different incoming counter values. -/
theorem c4_weekly_two_page_confirmation_witness :
    (¬([(⟨"5", "L5", "5", "2020"⟩ : LegEntry)] : List LegEntry).length = 0)
    ∧ (∀ e ∈ ([(⟨"5", "L5", "5", "2020"⟩ : LegEntry)] : List LegEntry),
        rW.state.is_downloaded e.leg_id = true)
    ∧ rW.state.is_downloaded ("9" : String) = false
    ∧ legCrawl ⟨fun _ => true⟩ true true 0
        ([(⟨"5", "L5", "5", "2020"⟩ : LegEntry)]
          :: [(⟨"5", "L5", "5", "2020"⟩ : LegEntry)]
          :: [[(⟨"7", "L7", "7", "2021"⟩ : LegEntry)]]) 1 0 rW
      = legCrawl ⟨fun _ => true⟩ true true 0
        [[(⟨"5", "L5", "5", "2020"⟩ : LegEntry)],
         [(⟨"5", "L5", "5", "2020"⟩ : LegEntry)]] 1 0 rW := by
  refine ⟨by decide, by decide, by decide, ?_⟩
  exact (c4_weekly_two_page_confirmation ⟨fun _ => true⟩ 0 1 rW
    [(⟨"5", "L5", "5", "2020"⟩ : LegEntry)]
    [(⟨"5", "L5", "5", "2020"⟩ : LegEntry)]
    [[(⟨"7", "L7", "7", "2021"⟩ : LegEntry)]]
    (by decide) (by decide) (by decide) (by decide)
    [(⟨"9", "L9", "9", "2024"⟩ : LegEntry)] [] 3 5 7 rW
    (⟨"9", "L9", "9", "2024"⟩ : LegEntry) (by decide) (by decide)).2.1
